import Mathlib

/-!
# FinLogBot: model of the aggregation and validation logic of `bot.py`

This file embeds the logic owned by the FinLogBot repository (`bot.py`):
the global `/summary` aggregation, the `/breakdown` monthly/category
aggregation (timestamp parsing, category normalization, grouping,
ordering, rendering), and the record validation done by `handle_message`
before a row is appended to the ledger.

Modelling conventions:
* Python floats are modelled as rationals (`ℚ`); the amounts the program
  handles are exact decimals, so no binary-rounding behaviour is relied on.
* A spreadsheet `amount` cell is modelled by whether Python `float()` on it
  succeeds and with which value (`AmountCell`): a numeric cell, a string
  cell that parses as a number, or a string cell on which `float()` raises
  `ValueError`.
* `datetime.strptime(s, "%Y-%m-%d %H:%M:%S")` is modelled by
  `strptimeYmdHMS`: exactly four year digits, one or two digits for the
  other fields (as CPython's `_strptime` regex admits), one or more
  whitespace characters where the format has the blank, full consumption
  of the input, and the range/calendar checks the `datetime` constructor
  performs. ASCII whitespace stands in for the regex class `\s`.
* Python `str.strip` and `str.lower` are modelled on the character list
  (`pyStrip`, `pyLower`); ASCII suffices for the strings the claims use.
* The external stores are explicit: the ledger read back by the
  aggregators is a `List Row`; `handle_message` threads the append-only
  ledger of `SheetRow`s and returns the reply text, with the append
  assumed to succeed (the failure path only rewords the reply).
-/

set_option allowUnsafeReducibility true in
attribute [semireducible] Rat.add Rat.sub Rat.mul Rat.inv Rat.ofScientific

/-- An `amount` cell as `float()` sees it: a numeric cell with value `q`, a
string cell that parses to `q`, or a string cell on which `float()` raises
`ValueError`. -/
inductive AmountCell where
  | num (q : ℚ)
  | strOk (q : ℚ)
  | strBad
deriving DecidableEq

/-- One ledger row as `sheet.get_all_records()` returns it, keyed by the
column headers `timestamp`, `description`, `category`, `amount`, `type`.
`none` models a missing column (Python `r.get(key)` default). The `type`
cell is kept as the string `str(...)` produces for it. -/
structure Row where
  timestamp : Option String
  description : Option String
  category : Option String
  amount : Option AmountCell
  typ : Option String
deriving DecidableEq

/-- `float(r.get('amount', 0))` in both aggregators: a missing cell defaults
to `0`, a parseable cell yields its value, and an unparseable string raises
(`none`, the row is then skipped by the enclosing `except`). -/
def parseAmount : Option AmountCell → Option ℚ
  | none => some 0
  | some (AmountCell.num q) => some q
  | some (AmountCell.strOk q) => some q
  | some AmountCell.strBad => none

/-- Python `str.lower`, character by character (ASCII). -/
def pyLower (s : String) : String :=
  String.mk (s.data.map (fun c => c.toLower))

/-- Python `str.strip`: drop whitespace from both ends. -/
def pyStrip (s : String) : String :=
  String.mk (((s.data.dropWhile (fun c => c.isWhitespace)).reverse.dropWhile
    (fun c => c.isWhitespace)).reverse)

/-- The running totals of the `summary` handler (`total_expense`,
`total_income` in `bot.py`). -/
structure Totals where
  total_expense : ℚ
  total_income : ℚ
deriving DecidableEq

/-- One iteration of the `for r in records` loop of `summary` (bot.py lines
134-145): parse the amount (a `ValueError` skips the row), lowercase the
kind, and add the amount to the matching total. There is no sign check. -/
def summaryStep (t : Totals) (r : Row) : Totals :=
  match parseAmount r.amount with
  | none => t
  | some amount =>
    let record_type := pyLower (r.typ.getD "")
    if record_type = "expense" then
      { t with total_expense := t.total_expense + amount }
    else if record_type = "income" then
      { t with total_income := t.total_income + amount }
    else t

/-- The totals `summary` computes over the whole ledger. -/
def summaryTotals (records : List Row) : Totals :=
  List.foldl summaryStep { total_expense := 0, total_income := 0 } records

/-- Two-decimal formatting, Python's `f"{x:.2f}"` for the exact-cent values
the program displays (the tie-rounding mode never bites on such values). -/
def fmtQ2 (q : ℚ) : String :=
  let x : ℚ := q * 100 + 1 / 2
  let cents : ℤ := Int.fdiv x.num (x.den : ℤ)
  let sign := if cents < 0 then "-" else ""
  let m := cents.natAbs
  let frac := m % 100
  sign ++ toString (m / 100) ++ "." ++
    (if frac < 10 then "0" ++ toString frac else toString frac)

/-- The reply text of the `/summary` handler (bot.py lines 147-152). -/
def summary (records : List Row) : String :=
  let t := summaryTotals records
  "📊 Expense Summary:\n" ++
    "Total Income: ₹" ++ fmtQ2 t.total_income ++ "\n" ++
    "Total Expense: ₹" ++ fmtQ2 t.total_expense ++ "\n" ++
    "Balance: ₹" ++ fmtQ2 (t.total_income - t.total_expense)

/-- A parsed timestamp, the fields of the `datetime` object. -/
structure Datetime where
  year : ℕ
  month : ℕ
  day : ℕ
  hour : ℕ
  minute : ℕ
  second : ℕ
deriving DecidableEq

/-- The value of a decimal digit character, `none` for a non-digit. -/
def readDigit (c : Char) : Option ℕ :=
  if c.isDigit then some (c.toNat - 48) else none

/-- Exactly four digits (`%Y` in CPython's `_strptime` regex). -/
def read4 : List Char → Option (ℕ × List Char)
  | a :: b :: c :: d :: rest =>
    match readDigit a, readDigit b, readDigit c, readDigit d with
    | some x, some y, some z, some w => some ((((x * 10 + y) * 10 + z) * 10 + w), rest)
    | _, _, _, _ => none
  | _ => none

/-- One or two digits, greedily (`%m`, `%d`, `%H`, `%M`, `%S`: the regex
alternatives never leave a second available digit unconsumed, because the
character after each field is a non-digit delimiter). -/
def read12 : List Char → Option (ℕ × List Char)
  | [] => none
  | a :: rest =>
    match readDigit a with
    | none => none
    | some x =>
      match rest with
      | [] => some (x, [])
      | b :: rest2 =>
        match readDigit b with
        | some y => some (x * 10 + y, rest2)
        | none => some (x, rest)

/-- A literal delimiter of the format string. -/
def expectChar (ch : Char) : List Char → Option (List Char)
  | [] => none
  | c :: rest => if c = ch then some rest else none

/-- The blank of the format: `_strptime` turns it into `\s+`, so one or
more whitespace characters are consumed. -/
def expectWs : List Char → Option (List Char)
  | [] => none
  | c :: rest =>
    if c.isWhitespace then some (rest.dropWhile (fun x => x.isWhitespace)) else none

/-- Gregorian leap year, as `datetime` uses it. -/
def isLeapYear (y : ℕ) : Bool :=
  (y % 4 = 0 && y % 100 ≠ 0) || y % 400 = 0

/-- Days in a month, as the `datetime` constructor validates them. -/
def daysInMonth (y m : ℕ) : ℕ :=
  if m = 2 then (if isLeapYear y then 29 else 28)
  else if m = 4 ∨ m = 6 ∨ m = 9 ∨ m = 11 then 30
  else 31

/-- `datetime.strptime(s, "%Y-%m-%d %H:%M:%S")`: `none` exactly when Python
raises `ValueError` (unmatched format, unconverted trailing data, or a
field the `datetime` constructor rejects). -/
def strptimeYmdHMS (s : String) : Option Datetime := do
  let (y, r1) ← read4 s.data
  let r2 ← expectChar ('-') r1
  let (mo, r3) ← read12 r2
  let r4 ← expectChar ('-') r3
  let (d, r5) ← read12 r4
  let r6 ← expectWs r5
  let (h, r7) ← read12 r6
  let r8 ← expectChar (':') r7
  let (mi, r9) ← read12 r8
  let r10 ← expectChar (':') r9
  let (se, r11) ← read12 r10
  if r11 = [] ∧ 1 ≤ y ∧ 1 ≤ mo ∧ mo ≤ 12 ∧ 1 ≤ d ∧ d ≤ daysInMonth y mo ∧
      h ≤ 23 ∧ mi ≤ 59 ∧ se ≤ 59 then
    some { year := y, month := mo, day := d, hour := h, minute := mi, second := se }
  else
    none

/-- A natural number zero-padded to two digits (`%m` in `strftime`). -/
def pad2 (n : ℕ) : String :=
  if n < 10 then "0" ++ toString n else toString n

/-- A natural number zero-padded to four digits (`%Y` in `strftime` for the
four-digit years the program handles). -/
def pad4 (n : ℕ) : String :=
  if n < 10 then "000" ++ toString n
  else if n < 100 then "00" ++ toString n
  else if n < 1000 then "0" ++ toString n
  else toString n

/-- The full month name (`%B`). -/
def monthName : ℕ → String
  | 1 => "January"
  | 2 => "February"
  | 3 => "March"
  | 4 => "April"
  | 5 => "May"
  | 6 => "June"
  | 7 => "July"
  | 8 => "August"
  | 9 => "September"
  | 10 => "October"
  | 11 => "November"
  | 12 => "December"
  | _ => ""

/-- `dt_object.strftime("%Y-%m")`, the month bucket key. -/
def monthKey (dt : Datetime) : String :=
  pad4 dt.year ++ "-" ++ pad2 dt.month

/-- `dt_object.strftime("%B %Y")`, the display label of a month. -/
def monthLabel (dt : Datetime) : String :=
  monthName dt.month ++ " " ++ pad4 dt.year

/-- One month's entry of `monthly_data` (bot.py lines 190-196). `expenses`
is the category-to-amount dict, kept as an insertion-ordered association
list with unique keys, the order a Python dict preserves. -/
structure Bucket where
  month_name : String
  expenses : List (String × ℚ)
  income : ℚ
  total_monthly_expense : ℚ
  total_monthly_income : ℚ
deriving DecidableEq

/-- The freshly initialized month entry. -/
def freshBucket (name : String) : Bucket :=
  { month_name := name, expenses := [], income := 0,
    total_monthly_expense := 0, total_monthly_income := 0 }

/-- `expenses[category] = expenses.get(category, 0.0) + amount` on the
insertion-ordered dict. -/
def updateAssoc : List (String × ℚ) → String → ℚ → List (String × ℚ)
  | [], k, a => [(k, a)]
  | (k', v) :: rest, k, a =>
    if k' = k then (k', v + a) :: rest else (k', v) :: updateAssoc rest k a

/-- Look up / initialize the month entry and apply the aggregation step to
it: an absent key appends a fresh bucket (dict insertion order), a present
key is updated in place. -/
def updateMonth : List (String × Bucket) → String → String → (Bucket → Bucket) →
    List (String × Bucket)
  | [], k, name, f => [(k, f (freshBucket name))]
  | (k', b) :: rest, k, name, f =>
    if k' = k then (k', f b) :: rest else (k', b) :: updateMonth rest k name f

/-- `r.get('category', 'N/A').strip() or 'Uncategorized'` (bot.py line 174). -/
def normalizeCategory (c : Option String) : String :=
  let s := pyStrip (c.getD "N/A")
  if s = "" then "Uncategorized" else s

/-- One iteration of the `for r in records` loop of
`monthly_breakdown_summary` (bot.py lines 170-210): parse the amount (a
`ValueError` skips the row), skip rows with a falsy timestamp or a
non-positive amount, parse the timestamp (a `ValueError` skips the row),
then aggregate by kind into the month's entry. A valid row with an
unrecognized kind still creates its month entry but changes no total. -/
def processRow (monthly_data : List (String × Bucket)) (r : Row) :
    List (String × Bucket) :=
  let category := normalizeCategory r.category
  match parseAmount r.amount with
  | none => monthly_data
  | some amount =>
    let typ := pyLower (r.typ.getD "")
    if r.timestamp = none ∨ r.timestamp = some "" ∨ amount ≤ 0 then monthly_data
    else
      match strptimeYmdHMS (r.timestamp.getD "") with
      | none => monthly_data
      | some dt =>
        updateMonth monthly_data (monthKey dt) (monthLabel dt) (fun b =>
          if typ = "expense" then
            { b with expenses := updateAssoc b.expenses category amount,
                     total_monthly_expense := b.total_monthly_expense + amount }
          else if typ = "income" then
            { b with income := b.income + amount,
                     total_monthly_income := b.total_monthly_income + amount }
          else b)

/-- The `monthly_data` dict after the whole scan. -/
def breakdownData (records : List Row) : List (String × Bucket) :=
  List.foldl processRow [] records

/-- Python string comparison on character lists: lexicographic by code
point. -/
def charListLe : List Char → List Char → Bool
  | [], _ => true
  | _ :: _, [] => false
  | a :: as, b :: bs =>
    if a.val.toNat < b.val.toNat then true
    else if b.val.toNat < a.val.toNat then false
    else charListLe as bs

/-- The order `sorted` uses on strings, as a proposition. -/
def strLeP (s t : String) : Prop :=
  charListLe s.data t.data = true

instance : DecidableRel strLeP :=
  fun s t => inferInstanceAs (Decidable (charListLe s.data t.data = true))

/-- The key function `sorted(..., key=lambda item: item[0])` induces on the
category items. -/
def catLeP (p q : String × ℚ) : Prop :=
  strLeP p.1 q.1

instance : DecidableRel catLeP :=
  fun p q => inferInstanceAs (Decidable (strLeP p.1 q.1))

/-- `sorted_months = sorted(monthly_data.keys())` (bot.py line 213). -/
def sortedMonthKeys (records : List Row) : List String :=
  List.insertionSort strLeP ((breakdownData records).map (fun p => p.1))

/-- `sorted(month_entry['expenses'].items(), key=lambda item: item[0])`
(bot.py line 235). -/
def sortedCategories (b : Bucket) : List (String × ℚ) :=
  List.insertionSort catLeP b.expenses

/-- The association-list lookup `monthly_data[month_key]`. -/
def lookupMonth : List (String × Bucket) → String → Option Bucket
  | [], _ => none
  | (k, b) :: rest, key => if k = key then some b else lookupMonth rest key

/-- The `Monthly Balance` line of the rendered breakdown (bot.py lines
242-245): it shows `total_monthly_income - total_monthly_expense`. -/
def monthlyBalanceLine (b : Bucket) : String :=
  "Monthly Balance: ₹" ++ fmtQ2 (b.total_monthly_income - b.total_monthly_expense) ++ "\n"

/-- One month's section of the rendered breakdown (bot.py lines 226-246). -/
def renderMonth (b : Bucket) : String :=
  ("--- **" ++ b.month_name ++ "** ---\n" ++
    "💰 Income: ₹" ++ fmtQ2 b.income ++ "\n" ++
    (if b.expenses.isEmpty then "💸 No expenses recorded for this month.\n"
     else "💸 Expenses by Category:\n" ++
       (sortedCategories b).foldl
         (fun acc p => acc ++ "  - " ++ p.1 ++ ": ₹" ++ fmtQ2 p.2 ++ "\n") "") ++
    "Total Monthly Expense: ₹" ++ fmtQ2 b.total_monthly_expense ++ "\n") ++
    monthlyBalanceLine b ++ "\n"

/-- The reply text of the `/breakdown` handler (bot.py lines 159-248). The
lookup of a sorted key always succeeds (the keys come from the dict); the
`none` branch is unreachable. -/
def monthly_breakdown_summary (records : List Row) : String :=
  if records = [] then "Your sheet is empty. No breakdown available."
  else
    let md := breakdownData records
    let sm := sortedMonthKeys records
    if sm = [] then "No valid financial records found to generate a breakdown."
    else
      sm.foldl
        (fun acc k =>
          acc ++ (match lookupMonth md k with
            | some b => renderMonth b
            | none => ""))
        "📈 **Monthly Financial Breakdown** 📈\n\n"

/-- A JSON value as `json.loads` can return it for the `amount` field:
a (finite) int or float, the IEEE specials `json.loads` admits, a bool
(a Python bool is an `int` instance), a string, or null. -/
inductive JVal where
  | jint (n : ℤ)
  | jfloat (q : ℚ)
  | jinf
  | jneginf
  | jnan
  | jbool (b : Bool)
  | jstr (s : String)
  | jnull
deriving DecidableEq

/-- `isinstance(amount, (int, float))`: ints, floats (the IEEE specials are
floats) and bools (a subclass of `int`) pass. -/
def isNumber : JVal → Bool
  | JVal.jint _ => true
  | JVal.jfloat _ => true
  | JVal.jinf => true
  | JVal.jneginf => true
  | JVal.jnan => true
  | JVal.jbool _ => true
  | JVal.jstr _ => false
  | JVal.jnull => false

/-- Python `amount <= 0` for a numeric value: every comparison with NaN is
false, `inf > 0`, `True == 1`, `False == 0`. (Only evaluated after
`isinstance` has passed; the value on non-numbers is immaterial.) -/
def pyLe0 : JVal → Bool
  | JVal.jint n => decide (n ≤ 0)
  | JVal.jfloat q => decide (q ≤ 0)
  | JVal.jinf => false
  | JVal.jneginf => true
  | JVal.jnan => false
  | JVal.jbool b => !b
  | JVal.jstr _ => false
  | JVal.jnull => false

/-- The record validator of `handle_message` (bot.py lines 269-272): a row
is logged exactly when `isinstance(amount, (int, float))` holds and
`amount <= 0` is false. -/
def acceptsAmount (a : JVal) : Bool :=
  isNumber a && !(pyLe0 a)

/-- The record the extraction oracle returned (`parsed` in
`handle_message`); each field may be absent. -/
structure Parsed where
  description : Option String
  category : Option String
  amount : Option JVal
  typ : Option String
deriving DecidableEq

/-- A row as appended to the sheet:
`[timestamp, description, category, amount, typ]`. -/
structure SheetRow where
  timestamp : String
  description : String
  category : String
  amount : JVal
  typ : String
deriving DecidableEq

/-- `f"{amount:.2f}"` on the logged value (only numeric values reach it). -/
def jvalFmt2 : JVal → String
  | JVal.jint n => fmtQ2 (n : ℚ)
  | JVal.jfloat q => fmtQ2 q
  | JVal.jinf => "inf"
  | JVal.jneginf => "-inf"
  | JVal.jnan => "nan"
  | JVal.jbool b => if b then fmtQ2 1 else fmtQ2 0
  | JVal.jstr _ => ""
  | JVal.jnull => ""

/-- `handle_message` (bot.py lines 255-282) after the extraction call:
given the oracle's result and the current ledger, the new ledger and the
reply. Defaults are applied, the amount is validated, and on success the
row is appended. -/
def handle_message (ledger : List SheetRow) (parsed : Option Parsed) (now : String) :
    List SheetRow × String :=
  match parsed with
  | none =>
    (ledger,
      "Sorry, I couldn't understand your message. Please try again with details like 'Bought snacks ₹150' or 'Received salary ₹50000'.")
  | some p =>
    let description := p.description.getD "N/A"
    let category := p.category.getD "N/A"
    let amount := p.amount.getD (JVal.jint 0)
    let typ := pyLower (p.typ.getD "expense")
    if isNumber amount = false ∨ pyLe0 amount = true then
      (ledger,
        "Sorry, I couldn't extract a valid positive amount from your message. Please try again.")
    else
      (ledger ++ [{ timestamp := now, description := description, category := category,
                    amount := amount, typ := typ }],
        "✅ Logged your " ++ typ ++ ": " ++ description ++ " of ₹" ++ jvalFmt2 amount)

/-- The expense contribution of a row to the global summary: its parsed
amount when the lowercased kind is `expense`, nothing otherwise (also
nothing when `float()` fails). The reference selector for the summary's
`total_expense`. -/
def expenseOf (r : Row) : Option ℚ :=
  match parseAmount r.amount with
  | some a => if pyLower (r.typ.getD "") = "expense" then some a else none
  | none => none

/-- The income contribution of a row to the global summary. -/
def incomeOf (r : Row) : Option ℚ :=
  match parseAmount r.amount with
  | some a => if pyLower (r.typ.getD "") = "income" then some a else none
  | none => none

/-- A row whose timestamp does not parse in the `%Y-%m-%d %H:%M:%S` format
(a missing timestamp does not parse either). -/
def tsUnparsable (r : Row) : Prop :=
  match r.timestamp with
  | none => True
  | some s => strptimeYmdHMS s = none

/-- The internal consistency of one month entry: the expense total is the
sum of the category map, and the displayed income equals the income total. -/
def bucketInv (b : Bucket) : Prop :=
  b.total_monthly_expense = (b.expenses.map (fun p => p.2)).sum ∧
    b.income = b.total_monthly_income

/-- Modelled from the claim's words, for comparison with the code's
validator: a "finite number strictly greater than zero" (an int or finite
float with positive value; infinities, NaN, bools and non-numbers are not
finite positive numbers). -/
def specFinitePositive : JVal → Bool
  | JVal.jint n => decide (0 < n)
  | JVal.jfloat q => decide (0 < q)
  | _ => false

/-- A ledger row with a negative amount and kind `expense`. -/
def c1Row : Row :=
  { timestamp := some "2024-05-01 10:00:00", description := some "refund",
    category := some "Misc", amount := some (AmountCell.num (-5)), typ := some "expense" }

/-- A valid expense row whose timestamp does not parse. -/
def c2Row : Row :=
  { timestamp := some "yesterday at noon", description := some "groceries",
    category := some "Groceries & Home Needs", amount := some (AmountCell.num 100),
    typ := some "expense" }

/-- The spec's global-summary example ledger: one 100 expense, one 50
income. -/
def c3Rows : List Row :=
  [{ timestamp := some "2024-05-01 10:00:00", description := some "rent",
     category := some "Rent", amount := some (AmountCell.num 100), typ := some "expense" },
   { timestamp := some "2024-05-02 10:00:00", description := some "salary",
     category := some "Rent", amount := some (AmountCell.num 50), typ := some "income" }]

/-- One month with income 50 and expense 100: its computed balance (-50)
differs from its expense total (100). -/
def c4Rows : List Row :=
  [{ timestamp := some "2024-05-01 10:00:00", description := some "salary",
     category := some "Income", amount := some (AmountCell.num 50), typ := some "income" },
   { timestamp := some "2024-05-02 11:00:00", description := some "rent",
     category := some "Rent", amount := some (AmountCell.num 100), typ := some "expense" }]

/-- The one bucket `c4Rows` produces. -/
def c4Bucket : Bucket :=
  { month_name := "May 2024", expenses := [("Rent", 100)], income := 50,
    total_monthly_expense := 100, total_monthly_income := 50 }

/-- An extracted record whose kind is present but not one of
expense/income. -/
def c5Parsed : Parsed :=
  { description := some "Coffee", category := some "Misc",
    amount := some (JVal.jint 100), typ := some "Transfer" }

/-- The row `handle_message` appends for `c5Parsed`: the kind is the
lowercased "Transfer", not the default "expense". -/
def c5Appended : SheetRow :=
  { timestamp := "2024-05-01 10:00:00", description := "Coffee", category := "Misc",
    amount := JVal.jint 100, typ := "transfer" }

/-- A row already on the sheet, to show a rejected request leaves the
ledger unchanged. -/
def c7Prior : SheetRow :=
  { timestamp := "2024-04-01 09:00:00", description := "earlier", category := "Misc",
    amount := JVal.jint 10, typ := "expense" }

/-- An extracted record with amount 0, which the validator rejects. -/
def c7Parsed : Parsed :=
  { description := some "freebie", category := some "Misc",
    amount := some (JVal.jint 0), typ := some "expense" }

/-- Two expense rows in December 2024 and January 2025, appearing in the
ledger in reverse chronological order. -/
def c8Rows : List Row :=
  [{ timestamp := some "2025-01-15 09:00:00", description := some "groceries",
     category := some "Groceries & Home Needs", amount := some (AmountCell.num 30),
     typ := some "expense" },
   { timestamp := some "2024-12-01 10:00:00", description := some "rent",
     category := some "Rent", amount := some (AmountCell.num 20), typ := some "expense" }]

/-- A valid expense row whose category is blank after trimming. -/
def c9Row : Row :=
  { timestamp := some "2024-05-01 10:00:00", description := some "odds and ends",
    category := some "  ", amount := some (AmountCell.num 50), typ := some "expense" }

/-- One income and two expense rows in the same month. -/
def c10Rows : List Row :=
  [{ timestamp := some "2024-05-01 10:00:00", description := some "salary",
     category := some "Income", amount := some (AmountCell.num 75), typ := some "income" },
   { timestamp := some "2024-05-03 08:30:00", description := some "rent",
     category := some "Rent", amount := some (AmountCell.num 40), typ := some "expense" },
   { timestamp := some "2024-05-04 08:30:00", description := some "toys",
     category := some "Baby Care", amount := some (AmountCell.num 25), typ := some "expense" }]

/-- The one bucket `c10Rows` produces. -/
def c10Bucket : Bucket :=
  { month_name := "May 2024", expenses := [("Rent", 40), ("Baby Care", 25)], income := 75,
    total_monthly_expense := 65, total_monthly_income := 75 }

/-- The code-point order on character lists is total. -/
theorem charListLe_total : ∀ xs ys : List Char,
    charListLe xs ys = true ∨ charListLe ys xs = true := by
  intro xs
  induction xs with
  | nil => intro ys; left; rfl
  | cons a as ih =>
    intro ys
    cases ys with
    | nil => right; rfl
    | cons b bs =>
      by_cases h1 : a.val.toNat < b.val.toNat
      · left; simp [charListLe, h1]
      · by_cases h2 : b.val.toNat < a.val.toNat
        · right; simp [charListLe, h2]
        · rcases ih bs with h | h
          · left; simp [charListLe, h1, h2, h]
          · right; simp [charListLe, h1, h2, h]

/-- The code-point order on character lists is transitive. -/
theorem charListLe_trans : ∀ xs ys zs : List Char,
    charListLe xs ys = true → charListLe ys zs = true → charListLe xs zs = true := by
  intro xs
  induction xs with
  | nil => intro ys zs _ _; rfl
  | cons a as ih =>
    intro ys zs h1 h2
    cases ys with
    | nil => simp [charListLe] at h1
    | cons b bs =>
      cases zs with
      | nil => simp [charListLe] at h2
      | cons c cs =>
        simp only [charListLe] at h1 h2 ⊢
        split_ifs at h1 h2 ⊢ with g1 g2 g3 g4 g5 g6 <;>
          first
            | rfl
            | omega
            | exact ih bs cs h1 h2

instance : IsTotal String strLeP :=
  ⟨fun s t => charListLe_total s.data t.data⟩

instance : IsTrans String strLeP :=
  ⟨fun s t u => charListLe_trans s.data t.data u.data⟩

instance : IsTotal (String × ℚ) catLeP :=
  ⟨fun p q => charListLe_total p.1.data q.1.data⟩

instance : IsTrans (String × ℚ) catLeP :=
  ⟨fun p q u => charListLe_trans p.1.data q.1.data u.1.data⟩

/-- The breakdown's month keys are rendered in ascending string order. -/
theorem sortedMonthKeys_sorted (records : List Row) :
    List.Sorted strLeP (sortedMonthKeys records) := by
  unfold sortedMonthKeys
  exact List.sorted_insertionSort strLeP ((breakdownData records).map (fun p => p.1))

/-- The category lines of any bucket are rendered in ascending name order. -/
theorem sortedCategories_sorted (b : Bucket) :
    List.Sorted strLeP ((sortedCategories b).map (fun p => p.1)) := by
  have h : List.Sorted catLeP (sortedCategories b) := by
    unfold sortedCategories
    exact List.sorted_insertionSort catLeP b.expenses
  unfold List.Sorted at h ⊢
  rw [List.pairwise_map]
  exact h

/-- The summary fold from any starting totals: each total grows by the sum
of the matching contributions. -/
theorem summary_foldl (records : List Row) : ∀ t : Totals,
    List.foldl summaryStep t records =
      { total_expense := t.total_expense + (records.filterMap expenseOf).sum,
        total_income := t.total_income + (records.filterMap incomeOf).sum } := by
  induction records with
  | nil => intro t; simp
  | cons r rest ih =>
    intro t
    rw [List.foldl_cons, ih]
    unfold summaryStep expenseOf incomeOf
    cases h : parseAmount r.amount with
    | none => simp [List.filterMap_cons, h]
    | some a =>
      by_cases he : pyLower (r.typ.getD "") = "expense"
      · simp [List.filterMap_cons, h, he]
        ring_nf
      · by_cases hi : pyLower (r.typ.getD "") = "income"
        · simp [List.filterMap_cons, h, he, hi]
          ring
        · simp [List.filterMap_cons, h, he, hi]

/-- The summary totals are the per-kind filtered sums. -/
theorem summaryTotals_eq (records : List Row) :
    summaryTotals records =
      { total_expense := (records.filterMap expenseOf).sum,
        total_income := (records.filterMap incomeOf).sum } := by
  unfold summaryTotals
  rw [summary_foldl]
  simp

/-- Inserting one row into the ledger shifts each summary total by that
row's contribution. -/
theorem summaryTotals_insert (l1 l2 : List Row) (r : Row) :
    summaryTotals (l1 ++ r :: l2) =
      { total_expense := (summaryTotals (l1 ++ l2)).total_expense + (expenseOf r).getD 0,
        total_income := (summaryTotals (l1 ++ l2)).total_income + (incomeOf r).getD 0 } := by
  rw [summaryTotals_eq, summaryTotals_eq]
  simp only [List.filterMap_append, List.filterMap_cons, List.sum_append]
  cases he : expenseOf r <;> cases hi : incomeOf r <;> simp
  case none.some => ring
  case some.none => ring
  case some.some => exact ⟨by ring, by ring⟩

/-- A parseable row of kind `expense` adds its amount to `total_expense`
and leaves `total_income` unchanged, whatever its sign or timestamp. -/
theorem summary_shift_expense (l1 l2 : List Row) (r : Row) (a : ℚ)
    (hp : parseAmount r.amount = some a) (hk : pyLower (r.typ.getD "") = "expense") :
    (summaryTotals (l1 ++ r :: l2)).total_expense
        = (summaryTotals (l1 ++ l2)).total_expense + a ∧
      (summaryTotals (l1 ++ r :: l2)).total_income
        = (summaryTotals (l1 ++ l2)).total_income := by
  have he : expenseOf r = some a := by
    unfold expenseOf
    rw [hp]
    simp [hk]
  have hi : incomeOf r = none := by
    unfold incomeOf
    rw [hp]
    simp [hk]
  rw [summaryTotals_insert]
  simp [he, hi]

/-- A parseable row of kind `income` adds its amount to `total_income` and
leaves `total_expense` unchanged, whatever its sign or timestamp. -/
theorem summary_shift_income (l1 l2 : List Row) (r : Row) (a : ℚ)
    (hp : parseAmount r.amount = some a) (hk : pyLower (r.typ.getD "") = "income") :
    (summaryTotals (l1 ++ r :: l2)).total_income
        = (summaryTotals (l1 ++ l2)).total_income + a ∧
      (summaryTotals (l1 ++ r :: l2)).total_expense
        = (summaryTotals (l1 ++ l2)).total_expense := by
  have he : expenseOf r = none := by
    unfold expenseOf
    rw [hp]
    simp [hk]
  have hi : incomeOf r = some a := by
    unfold incomeOf
    rw [hp]
    simp [hk]
  rw [summaryTotals_insert]
  simp [he, hi]

/-- The breakdown loop skips a row with a non-positive parsed amount. -/
theorem processRow_skip_nonpos (r : Row) (a : ℚ)
    (hp : parseAmount r.amount = some a) (ha : a ≤ 0) :
    ∀ md : List (String × Bucket), processRow md r = md := by
  intro md
  unfold processRow
  rw [hp]
  simp [ha]

/-- The breakdown loop skips a row whose timestamp does not parse. -/
theorem processRow_skip_ts (r : Row) (hts : tsUnparsable r) :
    ∀ md : List (String × Bucket), processRow md r = md := by
  intro md
  unfold processRow
  cases hp : parseAmount r.amount with
  | none => rfl
  | some a =>
    cases hcase : r.timestamp with
    | none => simp
    | some s =>
      unfold tsUnparsable at hts
      rw [hcase] at hts
      by_cases hcond : (some s : Option String) = none ∨ (some s : Option String) = some "" ∨ a ≤ 0
      · simp only [hcond, if_pos]
      · simp only [hcond, if_neg, not_false_iff]
        simp [hcase, hts]

/-- Deleting a row the breakdown loop skips does not change the month
dict. -/
theorem breakdownData_del (l1 l2 : List Row) (r : Row)
    (h : ∀ md : List (String × Bucket), processRow md r = md) :
    breakdownData (l1 ++ r :: l2) = breakdownData (l1 ++ l2) := by
  unfold breakdownData
  rw [List.foldl_append, List.foldl_cons, h, ← List.foldl_append]

/-- Two rows the breakdown loop treats identically yield the same month
dict in any ledger position. -/
theorem breakdownData_congr_at (l1 l2 : List Row) (r r' : Row)
    (h : ∀ md : List (String × Bucket), processRow md r = processRow md r') :
    breakdownData (l1 ++ r :: l2) = breakdownData (l1 ++ r' :: l2) := by
  unfold breakdownData
  rw [List.foldl_append, List.foldl_append, List.foldl_cons, List.foldl_cons, h]

/-- A row whose category is blank after trimming is aggregated exactly as
the same row with category `Uncategorized`. -/
theorem processRow_blank_category (r : Row) (c : String)
    (hc : r.category = some c) (hb : pyStrip c = "") :
    ∀ md : List (String × Bucket),
      processRow md r = processRow md { r with category := some "Uncategorized" } := by
  intro md
  unfold processRow normalizeCategory
  rw [hc]
  have hu : pyStrip "Uncategorized" = "Uncategorized" := by decide
  simp [hb, hu]

/-- Updating one category adds the amount to the sum of the category map. -/
theorem updateAssoc_sum (l : List (String × ℚ)) (k : String) (a : ℚ) :
    ((updateAssoc l k a).map (fun p => p.2)).sum = (l.map (fun p => p.2)).sum + a := by
  induction l with
  | nil => simp [updateAssoc]
  | cons p rest ih =>
    obtain ⟨k', v⟩ := p
    unfold updateAssoc
    by_cases h : k' = k
    · simp [h]
      ring
    · simp [h, ih]
      ring

/-- A bucket property preserved by the aggregation step and holding of a
freshly aggregated bucket holds of every bucket after `updateMonth`. -/
theorem updateMonth_inv (P : Bucket → Prop) (k name : String) (f : Bucket → Bucket)
    (hfresh : P (f (freshBucket name))) (hstep : ∀ b, P b → P (f b)) :
    ∀ md : List (String × Bucket), (∀ p ∈ md, P p.2) →
      ∀ p ∈ updateMonth md k name f, P p.2 := by
  intro md
  induction md with
  | nil =>
    intro _ p hp
    unfold updateMonth at hp
    simp at hp
    rw [hp]
    exact hfresh
  | cons q rest ih =>
    obtain ⟨k', b⟩ := q
    intro hmd p hp
    unfold updateMonth at hp
    by_cases h : k' = k
    · simp only [h, if_pos] at hp
      rcases List.mem_cons.mp hp with h1 | h1
      · rw [h1]
        exact hstep b (hmd (k', b) (List.mem_cons_self _ _))
      · exact hmd p (List.mem_cons_of_mem _ h1)
    · simp only [h, if_neg, not_false_iff] at hp
      rcases List.mem_cons.mp hp with h1 | h1
      · rw [h1]
        exact hmd (k', b) (List.mem_cons_self _ _)
      · exact ih (fun q hq => hmd q (List.mem_cons_of_mem _ hq)) p h1

/-- One breakdown step preserves the bucket invariant of every entry. -/
theorem processRow_inv (r : Row) (md : List (String × Bucket))
    (hmd : ∀ p ∈ md, bucketInv p.2) :
    ∀ p ∈ processRow md r, bucketInv p.2 := by
  unfold processRow
  cases hp : parseAmount r.amount with
  | none => exact hmd
  | some a =>
    by_cases hcond : r.timestamp = none ∨ r.timestamp = some "" ∨ a ≤ 0
    · simp only [hcond, if_pos]
      exact hmd
    · simp only [hcond, if_neg, not_false_iff]
      cases hdt : strptimeYmdHMS (r.timestamp.getD "") with
      | none => exact hmd
      | some dt =>
        apply updateMonth_inv bucketInv (monthKey dt) (monthLabel dt) _ _ _ md hmd
        · by_cases he : pyLower (r.typ.getD "") = "expense"
          · simp [he, bucketInv, freshBucket, updateAssoc]
          · by_cases hi : pyLower (r.typ.getD "") = "income"
            · simp [he, hi, bucketInv, freshBucket]
            · simp [he, hi, bucketInv, freshBucket]
        · intro b hb
          obtain ⟨hb1, hb2⟩ := hb
          by_cases he : pyLower (r.typ.getD "") = "expense"
          · refine ⟨?_, ?_⟩ <;> simp [he, updateAssoc_sum, hb1, hb2]
          · by_cases hi : pyLower (r.typ.getD "") = "income"
            · refine ⟨?_, ?_⟩ <;> simp [he, hi, hb1, hb2]
            · simp [he, hi]
              exact ⟨hb1, hb2⟩

/-- Every bucket of the breakdown satisfies the bucket invariant. -/
theorem breakdownData_inv (records : List Row) :
    ∀ p ∈ breakdownData records, bucketInv p.2 := by
  unfold breakdownData
  have main : ∀ (l : List Row) (md : List (String × Bucket)),
      (∀ p ∈ md, bucketInv p.2) → ∀ p ∈ List.foldl processRow md l, bucketInv p.2 := by
    intro l
    induction l with
    | nil => intro md hmd; exact hmd
    | cons r rest ih =>
      intro md hmd
      rw [List.foldl_cons]
      exact ih (processRow md r) (processRow_inv r md hmd)
  exact main records [] (by intro p hp; cases hp)

/-- String concatenation concatenates the underlying character lists. -/
theorem string_data_append (s t : String) : (s ++ t).data = s.data ++ t.data := by
  cases s
  cases t
  rfl

/-- When the validator accepts, `handle_message` appends the defaulted,
lowercased record and confirms. -/
theorem handle_append (ledger : List SheetRow) (p : Parsed) (now : String)
    (hacc : acceptsAmount (p.amount.getD (JVal.jint 0)) = true) :
    handle_message ledger (some p) now =
      (ledger ++ [{ timestamp := now, description := p.description.getD "N/A",
                    category := p.category.getD "N/A", amount := p.amount.getD (JVal.jint 0),
                    typ := pyLower (p.typ.getD "expense") }],
        "✅ Logged your " ++ pyLower (p.typ.getD "expense") ++ ": " ++
          p.description.getD "N/A" ++ " of ₹" ++ jvalFmt2 (p.amount.getD (JVal.jint 0))) := by
  unfold acceptsAmount at hacc
  rw [Bool.and_eq_true, Bool.not_eq_true'] at hacc
  unfold handle_message
  simp [hacc.1, hacc.2]

/-- C1, counterexample: a ledger row with amount -5 and kind `expense` is
not excluded from the global summary totals — it makes `total_expense`
equal -5, so the summary over this one-row ledger differs from the summary
over the empty ledger. -/
theorem C1_counterexample :
    (summaryTotals [c1Row]).total_expense = -5 ∧
      summaryTotals [c1Row] ≠ summaryTotals [] := by decide

/-- C1, amended: a row with a non-positive parsed amount is excluded from
every monthly bucket of the breakdown (deleting it does not change the
month dict), but it is not excluded from the global summary: the summary
adds its amount to the total matching its kind. -/
theorem C1_theorem :
    (∀ (l1 l2 : List Row) (r : Row) (a : ℚ),
        parseAmount r.amount = some a → a ≤ 0 →
        breakdownData (l1 ++ r :: l2) = breakdownData (l1 ++ l2)) ∧
    (∀ (l1 l2 : List Row) (r : Row) (a : ℚ),
        parseAmount r.amount = some a → a ≤ 0 → pyLower (r.typ.getD "") = "expense" →
        (summaryTotals (l1 ++ r :: l2)).total_expense
            = (summaryTotals (l1 ++ l2)).total_expense + a ∧
          (summaryTotals (l1 ++ r :: l2)).total_income
            = (summaryTotals (l1 ++ l2)).total_income) ∧
    (∀ (l1 l2 : List Row) (r : Row) (a : ℚ),
        parseAmount r.amount = some a → a ≤ 0 → pyLower (r.typ.getD "") = "income" →
        (summaryTotals (l1 ++ r :: l2)).total_income
            = (summaryTotals (l1 ++ l2)).total_income + a ∧
          (summaryTotals (l1 ++ r :: l2)).total_expense
            = (summaryTotals (l1 ++ l2)).total_expense) := by
  refine ⟨?_, ?_, ?_⟩
  · intro l1 l2 r a hp ha
    exact breakdownData_del l1 l2 r (processRow_skip_nonpos r a hp ha)
  · intro l1 l2 r a hp _ hk
    exact summary_shift_expense l1 l2 r a hp hk
  · intro l1 l2 r a hp _ hk
    exact summary_shift_income l1 l2 r a hp hk

/-- C1, witness: the amended claim instantiated at the -5 expense row. -/
theorem C1_witness :
    breakdownData ([] ++ c1Row :: []) = breakdownData ([] ++ []) ∧
      (summaryTotals ([] ++ c1Row :: [])).total_expense
        = (summaryTotals ([] ++ [])).total_expense + (-5) :=
  ⟨C1_theorem.1 [] [] c1Row (-5) (by decide) (by decide),
    (C1_theorem.2.1 [] [] c1Row (-5) (by decide) (by decide) (by decide)).1⟩

/-- C2: a row whose timestamp does not parse in `%Y-%m-%d %H:%M:%S` is
excluded from every bucket of the breakdown (deleting it does not change
the month dict), while the global summary still adds its parseable amount
to the total matching its valid kind. -/
theorem C2_theorem :
    (∀ (l1 l2 : List Row) (r : Row), tsUnparsable r →
        breakdownData (l1 ++ r :: l2) = breakdownData (l1 ++ l2)) ∧
    (∀ (l1 l2 : List Row) (r : Row) (a : ℚ),
        tsUnparsable r → parseAmount r.amount = some a →
        pyLower (r.typ.getD "") = "expense" →
        (summaryTotals (l1 ++ r :: l2)).total_expense
            = (summaryTotals (l1 ++ l2)).total_expense + a ∧
          (summaryTotals (l1 ++ r :: l2)).total_income
            = (summaryTotals (l1 ++ l2)).total_income) ∧
    (∀ (l1 l2 : List Row) (r : Row) (a : ℚ),
        tsUnparsable r → parseAmount r.amount = some a →
        pyLower (r.typ.getD "") = "income" →
        (summaryTotals (l1 ++ r :: l2)).total_income
            = (summaryTotals (l1 ++ l2)).total_income + a ∧
          (summaryTotals (l1 ++ r :: l2)).total_expense
            = (summaryTotals (l1 ++ l2)).total_expense) := by
  refine ⟨?_, ?_, ?_⟩
  · intro l1 l2 r hts
    exact breakdownData_del l1 l2 r (processRow_skip_ts r hts)
  · intro l1 l2 r a _ hp hk
    exact summary_shift_expense l1 l2 r a hp hk
  · intro l1 l2 r a _ hp hk
    exact summary_shift_income l1 l2 r a hp hk

/-- C2, witness: the divergence instantiated at a 100 expense row with the
unparsable timestamp "yesterday at noon". -/
theorem C2_witness :
    breakdownData ([] ++ c2Row :: []) = breakdownData ([] ++ []) ∧
      (summaryTotals ([] ++ c2Row :: [])).total_expense
        = (summaryTotals ([] ++ [])).total_expense + 100 :=
  ⟨C2_theorem.1 [] [] c2Row (by show strptimeYmdHMS "yesterday at noon" = none; decide),
    (C2_theorem.2.1 [] [] c2Row 100
      (by show strptimeYmdHMS "yesterday at noon" = none; decide) (by decide) (by decide)).1⟩

/-- C3: the global summary's totals are the sums of the amounts of the
rows whose lowercased kind is `expense` resp. `income` (rows whose amount
fails `float()` and rows of any other kind contribute to neither), and on
the ledger [100 expense, 50 income] the rendered summary shows income
50.00, expense 100.00 and balance income - expense = -50.00, each to two
decimal places. -/
theorem C3_theorem :
    (∀ records : List Row,
        summaryTotals records =
          { total_expense := (records.filterMap expenseOf).sum,
            total_income := (records.filterMap incomeOf).sum }) ∧
    summaryTotals c3Rows = { total_expense := 100, total_income := 50 } ∧
    summary c3Rows =
      "📊 Expense Summary:\nTotal Income: ₹50.00\nTotal Expense: ₹100.00\nBalance: ₹-50.00" := by
  refine ⟨summaryTotals_eq, by decide, by decide⟩

/-- C4, counterexample: for the month bucket with income 50 and expense
100 produced by `c4Rows`, the rendered balance line reads -50.00, which is
not the expense total 100.00 — the claim that the balance line shows the
expense total is false. -/
theorem C4_counterexample :
    breakdownData c4Rows = [("2024-05", c4Bucket)] ∧
      monthlyBalanceLine c4Bucket = "Monthly Balance: ₹-50.00\n" ∧
      monthlyBalanceLine c4Bucket ≠
        "Monthly Balance: ₹" ++ fmtQ2 c4Bucket.total_monthly_expense ++ "\n" := by decide

/-- C4, amended: the per-month balance line shows the computed balance,
income minus expense for that month, and that line appears in the rendered
month section. -/
theorem C4_theorem : ∀ b : Bucket,
    monthlyBalanceLine b =
      "Monthly Balance: ₹" ++
        fmtQ2 (b.total_monthly_income - b.total_monthly_expense) ++ "\n" ∧
      (monthlyBalanceLine b).data <:+: (renderMonth b).data := by
  intro b
  refine ⟨rfl, ?_⟩
  unfold renderMonth
  rw [string_data_append, string_data_append]
  exact ⟨_, _, rfl⟩

/-- C5, counterexample: an extracted record with the unrecognized kind
"Transfer" is logged with kind "transfer", not with the default
"expense". -/
theorem C5_counterexample :
    (handle_message [] (some c5Parsed) "2024-05-01 10:00:00").1 = [c5Appended] ∧
      c5Appended.typ = "transfer" ∧ ("transfer" : String) ≠ "expense" := by decide

/-- C5, amended: the kind defaults to "expense" only when the extracted
kind is absent; a present kind — recognized or not — is lowercased and the
appended row carries it as-is. -/
theorem C5_theorem :
    (∀ (ledger : List SheetRow) (p : Parsed) (now : String),
        p.typ = none → acceptsAmount (p.amount.getD (JVal.jint 0)) = true →
        (handle_message ledger (some p) now).1 =
          ledger ++ [{ timestamp := now, description := p.description.getD "N/A",
                       category := p.category.getD "N/A",
                       amount := p.amount.getD (JVal.jint 0), typ := "expense" }]) ∧
    (∀ (ledger : List SheetRow) (p : Parsed) (now : String) (s : String),
        p.typ = some s → acceptsAmount (p.amount.getD (JVal.jint 0)) = true →
        (handle_message ledger (some p) now).1 =
          ledger ++ [{ timestamp := now, description := p.description.getD "N/A",
                       category := p.category.getD "N/A",
                       amount := p.amount.getD (JVal.jint 0), typ := pyLower s }]) := by
  constructor
  · intro ledger p now ht hacc
    rw [handle_append ledger p now hacc]
    have h : pyLower "expense" = "expense" := by decide
    simp [ht, h]
  · intro ledger p now s ht hacc
    rw [handle_append ledger p now hacc]
    simp [ht]

/-- C5, witness: the amended claim instantiated at the "Transfer" record. -/
theorem C5_witness :
    (handle_message [] (some c5Parsed) "2024-05-01 10:00:00").1 =
      [] ++ [{ timestamp := "2024-05-01 10:00:00", description := "Coffee",
               category := "Misc", amount := JVal.jint 100, typ := pyLower "Transfer" }] :=
  C5_theorem.2 [] c5Parsed "2024-05-01 10:00:00" "Transfer" rfl (by decide)

/-- C6, counterexample: the validator accepts positive infinity and NaN,
which are not finite numbers strictly greater than zero — the claimed
"accepts iff finite and positive" equivalence fails. -/
theorem C6_counterexample :
    acceptsAmount JVal.jinf = true ∧ specFinitePositive JVal.jinf = false ∧
      acceptsAmount JVal.jnan = true ∧ specFinitePositive JVal.jnan = false := by decide

/-- C6, amended: the validator accepts a record exactly when the amount is
numeric and the Python comparison `amount <= 0` is false: positive ints,
positive finite floats, +Infinity, NaN (every comparison with NaN is
false) and True; everything else — non-numbers, non-positive finite
numbers, -Infinity, False — is rejected. Finiteness is not checked. -/
theorem C6_theorem : ∀ a : JVal,
    acceptsAmount a = true ↔
      ((∃ n : ℤ, a = JVal.jint n ∧ 0 < n) ∨ (∃ q : ℚ, a = JVal.jfloat q ∧ 0 < q) ∨
        a = JVal.jinf ∨ a = JVal.jnan ∨ a = JVal.jbool true) := by
  intro a
  cases a <;> simp [acceptsAmount, isNumber, pyLe0]

/-- C7: when the validator rejects the extracted amount, `handle_message`
returns the ledger unchanged together with the fixed validation-failure
reply; no row is appended. -/
theorem C7_theorem : ∀ (ledger : List SheetRow) (p : Parsed) (now : String),
    acceptsAmount (p.amount.getD (JVal.jint 0)) = false →
    handle_message ledger (some p) now =
      (ledger,
        "Sorry, I couldn't extract a valid positive amount from your message. Please try again.") := by
  intro ledger p now hacc
  unfold acceptsAmount at hacc
  rw [Bool.and_eq_false_iff] at hacc
  have hcond : isNumber (p.amount.getD (JVal.jint 0)) = false ∨
      pyLe0 (p.amount.getD (JVal.jint 0)) = true := by
    rcases hacc with h | h
    · left; exact Bool.eq_false_iff.mpr (by intro hh; rw [hh] at h; cases h)
    · right
      cases hl : pyLe0 (p.amount.getD (JVal.jint 0))
      · rw [hl] at h; cases h
      · rfl
  simp only [handle_message]
  rw [if_pos hcond]

/-- C7, witness: a zero-amount record against a one-row ledger leaves the
ledger as it was and yields the fixed rejection reply. -/
theorem C7_witness :
    handle_message [c7Prior] (some c7Parsed) "2024-05-01 10:00:00" =
      ([c7Prior],
        "Sorry, I couldn't extract a valid positive amount from your message. Please try again.") :=
  C7_theorem [c7Prior] c7Parsed "2024-05-01 10:00:00" (by decide)

/-- C8: for every ledger the rendered month keys are in ascending
code-point (lexicographic) order, within every bucket the category lines
are in ascending name order, and the ledger with months 2025-01 and
2024-12 renders 2024-12 first. -/
theorem C8_theorem :
    (∀ records : List Row, List.Sorted strLeP (sortedMonthKeys records)) ∧
    (∀ b : Bucket, List.Sorted strLeP ((sortedCategories b).map (fun p => p.1))) ∧
    sortedMonthKeys c8Rows = ["2024-12", "2025-01"] :=
  ⟨sortedMonthKeys_sorted, sortedCategories_sorted, by decide⟩

/-- C9: a row whose category is blank after trimming is aggregated by the
breakdown exactly as if its category were "Uncategorized", in any ledger
position. -/
theorem C9_theorem : ∀ (l1 l2 : List Row) (r : Row) (c : String),
    r.category = some c → pyStrip c = "" →
    breakdownData (l1 ++ r :: l2) =
      breakdownData (l1 ++ { r with category := some "Uncategorized" } :: l2) := by
  intro l1 l2 r c hc hb
  exact breakdownData_congr_at l1 l2 r _ (processRow_blank_category r c hc hb)

/-- C9, witness: the claim instantiated at a row with category "  ", whose
50 expense lands in the bucket under "Uncategorized". -/
theorem C9_witness :
    (breakdownData ([] ++ c9Row :: []) =
        breakdownData ([] ++ { c9Row with category := some "Uncategorized" } :: [])) ∧
      breakdownData [c9Row] =
        [("2024-05",
          { month_name := "May 2024", expenses := [("Uncategorized", 50)], income := 0,
            total_monthly_expense := 50, total_monthly_income := 0 })] :=
  ⟨C9_theorem [] [] c9Row "  " rfl (by decide), by decide⟩

/-- C10: every bucket of every breakdown satisfies the invariant — its
monthly expense total equals the sum of its category-to-amount map, and
its displayed income equals its monthly income total. -/
theorem C10_theorem : ∀ (records : List Row) (k : String) (b : Bucket),
    (k, b) ∈ breakdownData records →
    b.total_monthly_expense = (b.expenses.map (fun p => p.2)).sum ∧
      b.income = b.total_monthly_income := by
  intro records k b hmem
  exact breakdownData_inv records (k, b) hmem

/-- C10, witness: the invariant instantiated at the bucket `c10Rows`
produces (expenses 40 + 25 = 65, income 75). -/
theorem C10_witness :
    c10Bucket.total_monthly_expense = (c10Bucket.expenses.map (fun p => p.2)).sum ∧
      c10Bucket.income = c10Bucket.total_monthly_income :=
  C10_theorem c10Rows "2024-05" c10Bucket (by decide)
